import Mathlib

/-!
# Shallow embedding of the MitraVerify hybrid evidence-retrieval core

This file embeds the retrieval core of the repository
(`backend/models/vector_search.py`, `backend/models/reranker.py`,
`backend/models/embedding_engine.py`, `backend/models/caching.py`)
as Lean definitions and proves properties of them.

Modelling conventions:
- Python floats are modelled as `ℚ` in the executable pipeline and as `ℝ`
  where the claim is about the transcendental score-fusion formula.
- The FAISS index object is opaque to the Python code; it is modelled as a
  function from a query vector and `top_k` to the raw `(label, distance)`
  list the `index.search` call returns (FAISS pads with label `-1` when the
  index holds fewer vectors than `top_k`).
- The sentence-transformer / cross-encoder models are modelled as optional
  scoring functions (`none` = model failed to load).
- A `try/except` block whose handler returns a fixed value is modelled by
  propagating an `Option` failure to that value.
-/

/-- Metadata stored per vector, as built by `EvidenceRetriever.add_evidence`
(`vector_search.py`). -/
structure EvidenceMeta where
  id : String
  title : String
  content : String
  url : String
  source : String
  credibility_score : ℚ
deriving DecidableEq, Repr

/-- A query-time result dictionary.  `retrieve_evidence` creates it with the
metadata fields plus `similarity_score` and `faiss_index`; the reranking
stage later fills the optional fields (`None`-valued keys model keys that
are absent from the Python dict). -/
structure EvidenceResult where
  id : String
  title : String
  content : String
  url : String
  source : String
  credibility_score : ℚ
  similarity_score : ℚ
  faiss_index : ℤ
  rerank_score : Option ℚ
  combined_score : Option ℚ
  final_rank : Option ℕ
  ranking_method : Option String
deriving DecidableEq, Repr

/-- State of a `FAISSVectorSearch` object (`vector_search.py`).
`index` is the FAISS index handle: `none` when FAISS failed to initialize,
otherwise the raw ANN search function returning `(label, distance)` pairs. -/
structure VectorSearchState (V M : Type) where
  dimension : ℕ
  index : Option (V → ℕ → List (ℤ × ℚ))
  metadata : List M
  id_to_idx : List (String × ℕ)

/-- Python list indexing `l[i]`: non-negative indices are direct, negative
indices count from the end, anything out of range raises `IndexError`
(modelled as `none`). -/
def pyGet {α : Type} (l : List α) (i : ℤ) : Option α :=
  if 0 ≤ i then l.get? i.toNat
  else if 0 ≤ (l.length : ℤ) + i then l.get? (((l.length : ℤ) + i).toNat)
  else none

namespace FAISSVectorSearch

/-- The result-formatting loop of `FAISSVectorSearch.search`
(`vector_search.py` lines 136-144): for each raw `(idx, distance)` pair,
keep it when `idx < len(self.metadata)` (a signed comparison, as in
Python), convert the distance to a similarity `1/(1+distance)` and look up
`self.metadata[idx]` (Python indexing, so a negative `idx` wraps around and
an out-of-range access raises, modelled as `none`). -/
def formatResults {M : Type} (md : List M) : List (ℤ × ℚ) → Option (List (ℤ × ℚ × M))
  | [] => some []
  | (idx, dist) :: rest =>
    if idx < (md.length : ℤ) then
      match pyGet md idx with
      | none => none
      | some m =>
        match formatResults md rest with
        | none => none
        | some rs => some ((idx, 1 / (1 + dist), m) :: rs)
    else
      formatResults md rest

/-- `FAISSVectorSearch.search` (`vector_search.py` lines 109-148): returns
`[]` when the index is not initialized; otherwise runs the raw ANN search
and formats the results.  An exception inside the loop (bad metadata
access) is caught by the surrounding `except`, which returns `[]`. -/
def search {V M : Type} (st : VectorSearchState V M) (query_vector : V)
    (top_k : ℕ) : List (ℤ × ℚ × M) :=
  match st.index with
  | none => []
  | some ann => (formatResults st.metadata (ann query_vector top_k)).getD []

/-- The data stored in the pickled metadata side-file by `save_index`:
`metadata`, `id_to_idx` and `dimension` (each read back with `.get`, so
modelled as optional where `.get` has a default). -/
structure SavedMetadata (M : Type) where
  metadata : List M
  id_to_idx : List (String × ℕ)
  dimension : Option ℕ

/-- `FAISSVectorSearch.load_index` (`vector_search.py` lines 190-227).
`file = none` models the case where the index/metadata files do not exist
(or cannot be read): the method returns `False` and leaves the state.
Otherwise it replaces the index with the deserialized one, replaces the
metadata and id map, sets `self.dimension = data.get('dimension',
self.dimension)` and returns `True`.  No dimension check is performed. -/
def load_index {V M : Type} (st : VectorSearchState V M)
    (file : Option ((V → ℕ → List (ℤ × ℚ)) × SavedMetadata M)) :
    Bool × VectorSearchState V M :=
  match file with
  | none => (false, st)
  | some (blob, data) =>
    (true,
      { dimension := data.dimension.getD st.dimension
        index := some blob
        metadata := data.metadata
        id_to_idx := data.id_to_idx })

end FAISSVectorSearch

namespace EvidenceRetriever

/-- The result dictionary built for one hit inside
`EvidenceRetriever.retrieve_evidence` (`vector_search.py` lines 357-369). -/
def mkResult (idx : ℤ) (similarity : ℚ) (m : EvidenceMeta) : EvidenceResult :=
  { id := m.id
    title := m.title
    content := m.content
    url := m.url
    source := m.source
    credibility_score := m.credibility_score
    similarity_score := similarity
    faiss_index := idx
    rerank_score := none
    combined_score := none
    final_rank := none
    ranking_method := none }

/-- `EvidenceRetriever.retrieve_evidence` (`vector_search.py` lines
330-376): embed the query (`none` = embedding failed, return `[]`), search
the index, and keep the hits with `similarity >= min_similarity`. -/
def retrieve_evidence {V : Type} (embed : String → Option V)
    (st : VectorSearchState V EvidenceMeta) (query : String) (top_k : ℕ)
    (min_similarity : ℚ) : List EvidenceResult :=
  match embed query with
  | none => []
  | some qv =>
    ((FAISSVectorSearch.search st qv top_k).filter
        (fun r => min_similarity ≤ r.2.1)).map
      (fun r => mkResult r.1 r.2.1 r.2.2)

end EvidenceRetriever

namespace Reranker

/-- The `(query, passage_text)` pair text built inside
`CrossEncoderReranker.rerank` (`reranker.py` lines 69-80) and identically in
`HybridRetriever._rerank_with_cross_encoder` (`vector_search.py` lines
542-553): `title + " " + content truncated to 500 chars (with "...")`,
stripped. -/
def passageText (p : EvidenceResult) : String :=
  let content := if 500 < p.content.length then p.content.take 500 ++ "..." else p.content
  (p.title ++ " " ++ content).trim

/-- `_combine_scores` for the executable pipeline, over `ℚ`.  The source
computes `max(0.0, min(1.0, 0.3 * similarity + 0.7 * sigmoid(rerank)))`
where `sigmoid x = 1/(1+exp(-x))` is transcendental; the pipeline model
abstracts the sigmoid as a parameter `σ` (the real-valued version is
`combine_scores` below; the pipeline claims do not depend on σ's value). -/
def combine_scoresQ (σ : ℚ → ℚ) (similarity_score rerank_score : ℚ) : ℚ :=
  max 0 (min 1 ((3 / 10) * similarity_score + (7 / 10) * σ rerank_score))

/-- One iteration of the scoring loop in `rerank` (`reranker.py` lines
87-95) / `_rerank_with_cross_encoder` (`vector_search.py` lines 559-567):
copy the passage dict, attach `rerank_score = scorer(query, passage_text)`
and `combined_score = _combine_scores(similarity_score, rerank_score)`.
(`CrossEncoder.predict` scores each pair independently, so the batch call
is modelled per pair.) -/
def scorePassage (σ : ℚ → ℚ) (scorer : String → String → ℚ) (query : String)
    (p : EvidenceResult) : EvidenceResult :=
  let rs := scorer query (passageText p)
  { p with rerank_score := some rs
           combined_score := some (combine_scoresQ σ p.similarity_score rs) }

/-- Sort key: `lambda x: x['combined_score']` (all passages have the key at
this point; the `getD 0` default is never hit in the pipeline). -/
def combKey (p : EvidenceResult) : ℚ :=
  p.combined_score.getD 0

/-- The shared reranking body (`reranker.py` lines 66-105 after the guard,
`vector_search.py` lines 538-576): score every passage, stable-sort by
`combined_score` descending (Python `list.sort(key=..., reverse=True)` is
a stable sort; `List.insertionSort` with `combKey b ≤ combKey a` places
higher scores first and keeps the original order on ties), then truncate
to `top_k` — except that Python's `if top_k:` skips the truncation when
`top_k` is `0` (or `None`). -/
def rerankBody (σ : ℚ → ℚ) (scorer : String → String → ℚ) (query : String)
    (passages : List EvidenceResult) (top_k : ℕ) : List EvidenceResult :=
  let scored := passages.map (scorePassage σ scorer query)
  let sorted := List.insertionSort (fun a b => combKey b ≤ combKey a) scored
  if top_k = 0 then sorted else sorted.take top_k

/-- `CrossEncoderReranker.rerank` (`reranker.py` lines 45-109): with no
model loaded it returns the passages unchanged (no truncation, no tagging);
with an empty passage list it returns `[]`; otherwise the shared body runs
(its `except` handler, which also returns `passages` unchanged, is the
model-failure path and is not reachable in the pure model). -/
def rerank (model : Option (String → String → ℚ)) (σ : ℚ → ℚ) (query : String)
    (passages : List EvidenceResult) (top_k : ℕ) : List EvidenceResult :=
  match model with
  | none => passages
  | some scorer =>
    if passages.isEmpty then [] else rerankBody σ scorer query passages top_k

end Reranker

namespace HybridRetriever

/-- The `Step 3: Add ranking metadata` loop (`vector_search.py` lines
510-513, `reranker.py` lines 217-220): `for i, result in
enumerate(reranked): result['final_rank'] = i + 1;
result['ranking_method'] = method`. -/
def addRankingMetadata (method : String) : ℕ → List EvidenceResult → List EvidenceResult
  | _, [] => []
  | i, r :: rest =>
    { r with final_rank := some (i + 1), ranking_method := some method } ::
      addRankingMetadata method (i + 1) rest

/-- `HybridRetriever.retrieve_and_rerank` from `vector_search.py` (lines
477-523).  `cross_encoder = none` models a cross-encoder that failed to
load.  Stage 1 retrieves `initial_top_k` candidates; stage 2 reranks them
(or truncates to `final_top_k` when the cross-encoder is unavailable);
stage 3 tags every result with its 1-based rank and the ranking method
(`'hybrid_dense_crossencoder' if self.cross_encoder else 'dense_only'`). -/
def retrieve_and_rerank_vs {V : Type}
    (cross_encoder : Option (String → String → ℚ)) (σ : ℚ → ℚ)
    (embed : String → Option V) (st : VectorSearchState V EvidenceMeta)
    (query : String) (initial_top_k final_top_k : ℕ) (min_similarity : ℚ) :
    List EvidenceResult :=
  let candidates := EvidenceRetriever.retrieve_evidence embed st query initial_top_k min_similarity
  if candidates.isEmpty then []
  else
    let reranked :=
      match cross_encoder with
      | some scorer => Reranker.rerankBody σ scorer query candidates final_top_k
      | none => candidates.take final_top_k
    addRankingMetadata
      (if cross_encoder.isSome then "hybrid_dense_crossencoder" else "dense_only")
      0 reranked

/-- `HybridRetriever.retrieve_and_rerank` from `reranker.py` (lines
188-230), the near-duplicate implementation: stage 2 delegates to
`CrossEncoderReranker.rerank` and stage 3 always tags
`'hybrid_dense_crossencoder'`, whether or not the scorer model loaded. -/
def retrieve_and_rerank_rr {V : Type}
    (model : Option (String → String → ℚ)) (σ : ℚ → ℚ)
    (embed : String → Option V) (st : VectorSearchState V EvidenceMeta)
    (query : String) (initial_top_k final_top_k : ℕ) (min_similarity : ℚ) :
    List EvidenceResult :=
  let candidates := EvidenceRetriever.retrieve_evidence embed st query initial_top_k min_similarity
  if candidates.isEmpty then []
  else
    addRankingMetadata "hybrid_dense_crossencoder" 0
      (Reranker.rerank model σ query candidates final_top_k)

end HybridRetriever

/-- `sigmoid` as used by `_combine_scores` (`reranker.py` line 129,
`vector_search.py` line 600): `1 / (1 + np.exp(-rerank_score))`, over ℝ. -/
noncomputable def sigmoid (x : ℝ) : ℝ :=
  1 / (1 + Real.exp (-x))

/-- `_combine_scores` (`reranker.py` lines 111-139 and identically
`vector_search.py` lines 582-610), over ℝ, at the default weights
`similarity_weight = 0.3`, `rerank_weight = 0.7` (both call sites use the
defaults): normalize the rerank score with the sigmoid, take the weighted
sum and clamp to `[0, 1]` with `max(0.0, min(1.0, combined))`. -/
noncomputable def combine_scores (similarity_score rerank_score : ℝ) : ℝ :=
  let normalized_rerank := 1 / (1 + Real.exp (-rerank_score))
  let combined := 0.3 * similarity_score + 0.7 * normalized_rerank
  max 0 (min 1 combined)

/-- A `CacheEntry` (`caching.py` lines 24-49).  `time.time()` values are
modelled as `ℚ`; the constructor sets `created_at = last_accessed = now`
and `access_count = 0`.  The Python value universe includes `None`, so
claims about `None`-valued entries instantiate `V` with an `Option`. -/
structure CacheEntryQ (V : Type) where
  key : String
  value : V
  created_at : ℚ
  ttl_seconds : ℚ
  access_count : ℕ
  last_accessed : ℚ
deriving DecidableEq, Repr

namespace CacheEntryQ

/-- `CacheEntry.__init__`. -/
def mkEntry {V : Type} (key : String) (value : V) (ttl_seconds : ℚ) (now : ℚ) :
    CacheEntryQ V :=
  { key := key, value := value, created_at := now, ttl_seconds := ttl_seconds
    access_count := 0, last_accessed := now }

/-- `CacheEntry.is_expired`: `(time.time() - created_at) > ttl_seconds`. -/
def isExpired {V : Type} (e : CacheEntryQ V) (now : ℚ) : Bool :=
  decide (e.ttl_seconds < now - e.created_at)

/-- `CacheEntry.access`: bump `access_count`, refresh `last_accessed`. -/
def access {V : Type} (e : CacheEntryQ V) (now : ℚ) : CacheEntryQ V :=
  { e with access_count := e.access_count + 1, last_accessed := now }

end CacheEntryQ

namespace MemoryCache

/-- A `MemoryCache._cache` dict, modelled as an insertion-ordered list of
entries keyed by `CacheEntryQ.key` (a Python dict preserves insertion
order, keeps the original slot on overwrite, and has unique keys). -/
abbrev State (V : Type) := List (CacheEntryQ V)

/-- Dict lookup `self._cache.get(key)`. -/
def findEntry {V : Type} (st : State V) (key : String) : Option (CacheEntryQ V) :=
  st.find? (fun e => e.key == key)

/-- Dict deletion `del self._cache[key]` (removes the first — in a dict the
only — entry with the key). -/
def eraseKey {V : Type} : State V → String → State V
  | [], _ => []
  | e :: rest, key => if e.key == key then rest else e :: eraseKey rest key

/-- Dict assignment `self._cache[key] = entry`: overwrite in place when the
key exists, else append. -/
def assign {V : Type} : State V → CacheEntryQ V → State V
  | [], e' => [e']
  | e :: rest, e' => if e.key == e'.key then e' :: rest else e :: assign rest e'

/-- The key selected by `_evict_lru` (`caching.py` lines 168-179):
`min(self._cache.keys(), key=lambda k: self._cache[k].last_accessed)` —
the first entry (in dict order) with the smallest `last_accessed`. -/
def lruEntry {V : Type} : State V → Option (CacheEntryQ V)
  | [] => none
  | e :: rest =>
    match lruEntry rest with
    | none => some e
    | some q => if q.last_accessed < e.last_accessed then some q else some e

/-- `MemoryCache._evict_lru`: a no-op on an empty cache, otherwise deletes
the entry found by `lruEntry`. -/
def evictLRU {V : Type} (st : State V) : State V :=
  match lruEntry st with
  | none => st
  | some p => eraseKey st p.key

/-- Python's `ttl or self.default_ttl` (`caching.py` line 164): `None` and
`0` are falsy and fall back to the default. -/
def pyTtlOr (ttl : Option ℚ) (default_ttl : ℚ) : ℚ :=
  match ttl with
  | none => default_ttl
  | some t => if t = 0 then default_ttl else t

/-- `MemoryCache.set` (`caching.py` lines 157-166): evict the LRU entry
when `len(self._cache) >= self.max_size`, then store a fresh entry. -/
def set {V : Type} (st : State V) (max_size : ℕ) (default_ttl : ℚ)
    (key : String) (value : V) (ttl : Option ℚ) (now : ℚ) : State V :=
  let st1 := if max_size ≤ st.length then evictLRU st else st
  assign st1 (CacheEntryQ.mkEntry key value (pyTtlOr ttl default_ttl) now)

/-- `MemoryCache.get` (`caching.py` lines 146-155): a present, unexpired
entry is accessed (mutated in place) and its value returned; a present but
expired entry is deleted and `None` returned; a missing key returns
`None`.  The first component is the "value or `None`" return channel. -/
def get {V : Type} (st : State V) (key : String) (now : ℚ) :
    Option V × State V :=
  match findEntry st key with
  | none => (none, st)
  | some e =>
    if e.isExpired now then (none, eraseKey st key)
    else (some e.value, assign st (e.access now))

end MemoryCache

/-- The `CacheManager.stats` counter dict (`caching.py` lines 599-605). -/
structure CacheStats where
  hits : ℕ
  misses : ℕ
  sets : ℕ
  deletes : ℕ
  errors : ℕ
deriving DecidableEq, Repr

/-- `CacheManager.get` (`caching.py` lines 664-676) over a `MemoryCache`
backend whose stored values may be Python `None` (value type `Option U`).
The backend call `self.cache.get(key)` returns the stored value or `None`
in one channel — modelled by flattening `MemoryCache.get`'s
`Option (Option U)` with `getD none` — and the manager counts a hit iff
that channel `is not None`. -/
def CacheManager.get {U : Type} (st : MemoryCache.State (Option U))
    (stats : CacheStats) (key : String) (now : ℚ) :
    Option U × MemoryCache.State (Option U) × CacheStats :=
  let r := MemoryCache.get st key now
  let value : Option U := r.1.getD none
  match value with
  | some u => (some u, r.2, { stats with hits := stats.hits + 1 })
  | none => (none, r.2, { stats with misses := stats.misses + 1 })

/-- State of a `TextEmbeddingEngine` (`embedding_engine.py`): the optional
sentence-transformer model (a text → vector function when loaded), the
embedding dimension, and the in-process embedding cache (keyed in the
source by `md5(text)`; the hash is modelled by the text itself). -/
structure EmbeddingEngineState where
  model : Option (String → List ℚ)
  embedding_dim : ℕ
  embedding_cache : List (String × List ℚ)

/-- `TextEmbeddingEngine.encode_text` (`embedding_engine.py` lines
83-122).  Branch order as in the source: (1) `if not self.model: return
None`; (2) `if not text or not text.strip(): return np.zeros(dim)` —
`text` is falsy iff it is empty, `text.strip()` falsy iff it trims to
empty; (3) cache lookup when `use_cache`;
(4) encode and cache.  (The periodic `_save_cache` call does not change
the in-process state.) -/
def TextEmbeddingEngine.encode_text (st : EmbeddingEngineState) (text : String)
    (use_cache : Bool) : Option (List ℚ) × EmbeddingEngineState :=
  match st.model with
  | none => (none, st)
  | some m =>
    if text = "" ∨ text.trim = "" then (some (List.replicate st.embedding_dim 0), st)
    else
      match (if use_cache then st.embedding_cache.lookup text else none) with
      | some v => (some v, st)
      | none =>
        let e := m text
        let cache' := if use_cache then (text, e) :: st.embedding_cache
                      else st.embedding_cache
        (some e, { st with embedding_cache := cache' })

/-- Statement helper: erase the two fields that the `Add ranking metadata`
step writes, so that "stage-1 order and scores unchanged" can be stated as
an equality of lists. -/
def stripTag (r : EvidenceResult) : EvidenceResult :=
  { r with final_rank := none, ranking_method := none }

/-! ### Concrete fixtures (used by witnesses and counterexamples)

Vectors are modelled by `Unit` (their content is irrelevant once the ANN
search function is fixed), and all raw ANN distances are `0`, giving
similarity `1/(1+0) = 1`. -/

/-- A "vaccine safety" evidence record, as in the repository's test data. -/
def mVax : EvidenceMeta :=
  { id := "A", title := "COVID-19 Vaccine Safety"
    content := "COVID-19 vaccines are safe.", url := "https://example.com/a"
    source := "Health Ministry", credibility_score := 1 }

/-- A "digital initiative" evidence record, as in the repository's test data. -/
def mDigital : EvidenceMeta :=
  { id := "B", title := "Government Digital Initiative"
    content := "A digital literacy program.", url := "https://example.com/b"
    source := "PIB", credibility_score := 1 }

/-- A FAISS index holding one vector, searched with `top_k = 2`: FAISS pads
the missing slot with label `-1` (and a sentinel distance). -/
def annUnderfilled : Unit → ℕ → List (ℤ × ℚ) := fun _ _ => [(0, 0), (-1, 0)]

/-- A FAISS index holding two vectors, both at distance 0. -/
def annTwo : Unit → ℕ → List (ℤ × ℚ) := fun _ _ => [(0, 0), (1, 0)]

/-- An embedding function that always succeeds. -/
def embedU : String → Option Unit := fun _ => some ()

/-- An embedding function whose model failed to load. -/
def embedNone : String → Option Unit := fun _ => none

/-- A stand-in sigmoid for the abstracted `σ` parameter of the executable
pipeline. -/
def sigmaStub : ℚ → ℚ := fun _ => 0

/-- Vector-search state with one stored vector/metadata entry. -/
def stOne : VectorSearchState Unit EvidenceMeta :=
  { dimension := 384, index := some annUnderfilled, metadata := [mVax]
    id_to_idx := [("A", 0)] }

/-- Vector-search state with two stored vectors/metadata entries. -/
def stTwo : VectorSearchState Unit EvidenceMeta :=
  { dimension := 384, index := some annTwo, metadata := [mVax, mDigital]
    id_to_idx := [("A", 0), ("B", 1)] }

/-- Vector-search state with an initialized but empty index (FAISS returns
only `-1` padding labels on an empty index). -/
def stEmptyMeta : VectorSearchState Unit EvidenceMeta :=
  { dimension := 384, index := some (fun _ _ => [(-1, 0)]), metadata := []
    id_to_idx := [] }

/-- An empty deserialized FAISS index blob. -/
def blobEmpty : Unit → ℕ → List (ℤ × ℚ) := fun _ _ => []

/-- A metadata side-file recording dimension 512. -/
def saved512 : FAISSVectorSearch.SavedMetadata EvidenceMeta :=
  { metadata := [], id_to_idx := [], dimension := some 512 }

/-- The first stage-1 candidate of `stTwo` after dense-only tagging. -/
def rVaxTagged : EvidenceResult :=
  { id := "A", title := "COVID-19 Vaccine Safety"
    content := "COVID-19 vaccines are safe.", url := "https://example.com/a"
    source := "Health Ministry", credibility_score := 1
    similarity_score := 1, faiss_index := 0, rerank_score := none
    combined_score := none, final_rank := some 1
    ranking_method := some "dense_only" }

/-- Cache entry fixture: key "a", accessed most recently at time 5. -/
def entryA : CacheEntryQ ℕ :=
  { key := "a", value := 1, created_at := 0, ttl_seconds := 3600
    access_count := 0, last_accessed := 5 }

/-- Cache entry fixture: key "b", least recently accessed (time 3). -/
def entryB : CacheEntryQ ℕ :=
  { key := "b", value := 2, created_at := 0, ttl_seconds := 3600
    access_count := 0, last_accessed := 3 }

/-- Cache entry fixture storing the Python value `None`. -/
def entryNone : CacheEntryQ (Option ℕ) :=
  { key := "k", value := none, created_at := 0, ttl_seconds := 3600
    access_count := 0, last_accessed := 0 }

/-- Fresh `CacheManager` counters. -/
def stats0 : CacheStats :=
  { hits := 0, misses := 0, sets := 0, deletes := 0, errors := 0 }

/-- Engine state whose sentence-transformer model failed to load. -/
def engineNoModel : EmbeddingEngineState :=
  { model := none, embedding_dim := 3, embedding_cache := [] }

/-- Engine state with a loaded model. -/
def engineLoaded : EmbeddingEngineState :=
  { model := some (fun _ => [1, 1, 1]), embedding_dim := 3, embedding_cache := [] }

/-!
## Theorems
-/

/-- Claim C1 (code_bug): the bound check `idx < len(self.metadata)` in
`FAISSVectorSearch.search` does not filter FAISS's `-1` padding labels.  On
an index holding one vector and queried with `top_k = 2`, the raw ANN
output `[(0, 0), (-1, 0)]` produces a result containing position `-1` —
an out-of-metadata-bounds position delivered to the caller (paired, via
Python negative indexing, with the *last* metadata entry) — contradicting
the claimed invariant that such positions are filtered out. -/
theorem faiss_search_emits_negative_position :
    FAISSVectorSearch.search stOne () 2 = [(0, 1, mVax), (-1, 1, mVax)] ∧
    ((-1 : ℤ), (1 : ℚ), mVax) ∈ FAISSVectorSearch.search stOne () 2 ∧
    (-1 : ℤ) < 0 := by
  have h : FAISSVectorSearch.search stOne () 2 = [(0, 1, mVax), (-1, 1, mVax)] := by
    simp [FAISSVectorSearch.search, FAISSVectorSearch.formatResults, pyGet, stOne,
      annUnderfilled]
  refine ⟨h, ?_, by decide⟩
  rw [h]
  simp

/-- Claim C2 (counterexample): loading a file whose stored dimension (512)
differs from the configured dimension (384) succeeds (`True`) and silently
adopts the file's dimension, instead of rejecting the file. -/
theorem load_index_accepts_dimension_mismatch_cex :
    (FAISSVectorSearch.load_index stOne (some (blobEmpty, saved512))).1 = true ∧
    (FAISSVectorSearch.load_index stOne (some (blobEmpty, saved512))).2.dimension = 512 ∧
    stOne.dimension = 384 ∧ (512 : ℕ) ≠ 384 :=
  ⟨rfl, rfl, rfl, by decide⟩

/-- Claim C2 (amended): `load_index` performs no dimension check at all —
for every state and every readable file it reports success and sets the
index dimension to the file's stored dimension (keeping the configured one
only when the file records none). -/
theorem load_index_adopts_file_dimension {V M : Type}
    (st : VectorSearchState V M) (blob : V → ℕ → List (ℤ × ℚ))
    (data : FAISSVectorSearch.SavedMetadata M) :
    (FAISSVectorSearch.load_index st (some (blob, data))).1 = true ∧
    (FAISSVectorSearch.load_index st (some (blob, data))).2.dimension =
      data.dimension.getD st.dimension :=
  ⟨rfl, rfl⟩

/-- Claim C6: the combined score computed during reranking equals
`0.3 · similarity_score + 0.7 · sigmoid(rerank_score)` clamped to `[0,1]`,
and the result always lies in `[0,1]`. -/
theorem combine_scores_formula (similarity_score rerank_score : ℝ) :
    combine_scores similarity_score rerank_score =
      max 0 (min 1 (0.3 * similarity_score + 0.7 * sigmoid rerank_score)) ∧
    0 ≤ combine_scores similarity_score rerank_score ∧
    combine_scores similarity_score rerank_score ≤ 1 := by
  refine ⟨rfl, le_max_left 0 _, ?_⟩
  exact max_le (by norm_num) (min_le_left 1 _)

/-- The sigmoid used by `_combine_scores` is monotone. -/
theorem sigmoid_le_sigmoid {a b : ℝ} (h : a ≤ b) : sigmoid a ≤ sigmoid b := by
  unfold sigmoid
  have hb : (0 : ℝ) < 1 + Real.exp (-b) := by positivity
  have hab : 1 + Real.exp (-b) ≤ 1 + Real.exp (-a) := by
    have := Real.exp_le_exp.mpr (neg_le_neg h)
    linarith
  exact one_div_le_one_div_of_le hb hab

/-- Claim C7: `_combine_scores` is monotone in both arguments at the fixed
weights (0.3, 0.7): if passage A dominates passage B in both
`similarity_score` and `rerank_score`, its combined score is at least
B's. -/
theorem combine_scores_monotone (sA sB rA rB : ℝ) (hs : sB ≤ sA) (hr : rB ≤ rA) :
    combine_scores sB rB ≤ combine_scores sA rA := by
  unfold combine_scores
  have hsig : sigmoid rB ≤ sigmoid rA := sigmoid_le_sigmoid hr
  have hcore : 0.3 * sB + 0.7 * (1 / (1 + Real.exp (-rB))) ≤
      0.3 * sA + 0.7 * (1 / (1 + Real.exp (-rA))) := by
    have h1 : (0.3 : ℝ) * sB ≤ 0.3 * sA := by nlinarith
    have h2 : (0.7 : ℝ) * (1 / (1 + Real.exp (-rB))) ≤
        0.7 * (1 / (1 + Real.exp (-rA))) := by
      have := hsig
      unfold sigmoid at this
      nlinarith
    linarith
  exact max_le_max (le_refl 0) (min_le_min (le_refl 1) hcore)

/-- Witness for claim C7 at a concrete input. -/
theorem combine_scores_monotone_witness :
    combine_scores 0 0 ≤ combine_scores 1 2 :=
  combine_scores_monotone 1 0 2 0 zero_le_one zero_le_two

/-- Formatting raw ANN output over an empty metadata list always yields the
empty result: a padding label `-1` raises `IndexError` (handled as `[]`)
and a non-negative label fails the `idx < len(metadata)` check. -/
theorem formatResults_nil_metadata {M : Type} (raw : List (ℤ × ℚ)) :
    (FAISSVectorSearch.formatResults ([] : List M) raw).getD [] = [] := by
  induction raw with
  | nil => rfl
  | cons hd tl ih =>
    obtain ⟨idx, dist⟩ := hd
    by_cases h : idx < ((List.length ([] : List M)) : ℤ)
    · have h0 : idx < 0 := by simpa using h
      have hget : pyGet ([] : List M) idx = none := by
        simp only [pyGet, List.length_nil, Nat.cast_zero, zero_add]
        rw [if_neg (by omega), if_neg (by omega)]
      simp [FAISSVectorSearch.formatResults, h, hget, h0]
    · simp only [FAISSVectorSearch.formatResults]
      rw [if_neg h]
      exact ih

/-- `FAISSVectorSearch.search` on a state with no stored metadata returns
the empty list, whatever the raw ANN output. -/
theorem search_nil_metadata {V M : Type} (st : VectorSearchState V M)
    (h : st.metadata = []) (qv : V) (top_k : ℕ) :
    FAISSVectorSearch.search st qv top_k = [] := by
  unfold FAISSVectorSearch.search
  cases hi : st.index with
  | none => rfl
  | some ann => rw [h]; exact formatResults_nil_metadata (ann qv top_k)

/-- Claim C8: `retrieve_evidence` returns only records with
`similarity_score ≥ min_similarity`, and returns the empty list — rather
than erring — when the query cannot be embedded or the index holds no
metadata.  (The model is total, so no call can raise.) -/
theorem retrieve_evidence_spec {V : Type} (embed : String → Option V)
    (st : VectorSearchState V EvidenceMeta) (query : String) (top_k : ℕ)
    (min_similarity : ℚ) :
    (embed query = none →
      EvidenceRetriever.retrieve_evidence embed st query top_k min_similarity = []) ∧
    (st.metadata = [] →
      EvidenceRetriever.retrieve_evidence embed st query top_k min_similarity = []) ∧
    (∀ r ∈ EvidenceRetriever.retrieve_evidence embed st query top_k min_similarity,
      min_similarity ≤ r.similarity_score) := by
  refine ⟨?_, ?_, ?_⟩
  · intro h
    unfold EvidenceRetriever.retrieve_evidence
    rw [h]
  · intro h
    unfold EvidenceRetriever.retrieve_evidence
    cases he : embed query with
    | none => rfl
    | some qv => simp [search_nil_metadata st h qv top_k]
  · intro r hr
    unfold EvidenceRetriever.retrieve_evidence at hr
    cases he : embed query with
    | none => rw [he] at hr; simp at hr
    | some qv =>
      rw [he] at hr
      obtain ⟨t, ht, rfl⟩ := List.mem_map.mp hr
      have := (List.mem_filter.mp ht).2
      simpa [EvidenceRetriever.mkResult] using of_decide_eq_true this

/-- Witness for claim C8: a failed query embedding and an empty index both
yield `[]`, and a concrete retrieved record meets the threshold. -/
theorem retrieve_evidence_spec_witness :
    EvidenceRetriever.retrieve_evidence embedNone stTwo "q" 5 0 = [] ∧
    EvidenceRetriever.retrieve_evidence embedU stEmptyMeta "q" 5 0 = [] ∧
    (0 : ℚ) ≤ (EvidenceRetriever.mkResult 0 1 mVax).similarity_score := by
  refine ⟨(retrieve_evidence_spec embedNone stTwo "q" 5 0).1 rfl,
    (retrieve_evidence_spec embedU stEmptyMeta "q" 5 0).2.1 rfl,
    (retrieve_evidence_spec embedU stTwo "q" 5 0).2.2
      (EvidenceRetriever.mkResult 0 1 mVax) ?_⟩
  simp [EvidenceRetriever.retrieve_evidence, embedU, stTwo, annTwo,
    FAISSVectorSearch.search, FAISSVectorSearch.formatResults, pyGet,
    EvidenceRetriever.mkResult]

/-- Claim C9: `encode_text`'s model-availability check precedes its
empty-text branch: with no model loaded the result is `None` for every
input (whitespace-only included), and the empty/whitespace-to-zero-vector
rule applies only when the model is loaded. -/
theorem encode_text_model_gate (st : EmbeddingEngineState) (text : String)
    (use_cache : Bool) :
    (st.model = none →
      (TextEmbeddingEngine.encode_text st text use_cache).1 = none) ∧
    (∀ f, st.model = some f → (text = "" ∨ text.trim = "") →
      (TextEmbeddingEngine.encode_text st text use_cache).1 =
        some (List.replicate st.embedding_dim 0)) := by
  constructor
  · intro h
    unfold TextEmbeddingEngine.encode_text
    rw [h]
  · intro f hf ht
    simp [TextEmbeddingEngine.encode_text, hf, ht]

/-- Witness for claim C9: with no model even the empty text encodes to
`None`; with a model the empty text encodes to the zero vector. -/
theorem encode_text_model_gate_witness :
    (TextEmbeddingEngine.encode_text engineNoModel "" true).1 = none ∧
    (TextEmbeddingEngine.encode_text engineLoaded "" true).1 = some [0, 0, 0] := by
  constructor
  · exact (encode_text_model_gate engineNoModel "" true).1 rfl
  · have h := (encode_text_model_gate engineLoaded "" true).2
      (fun _ => [1, 1, 1]) rfl (Or.inl rfl)
    simpa using h

/-- Tagging results does not change anything except the two tag fields. -/
theorem addRankingMetadata_map_stripTag (m : String) (n : ℕ)
    (l : List EvidenceResult) :
    (HybridRetriever.addRankingMetadata m n l).map stripTag = l.map stripTag := by
  induction l generalizing n with
  | nil => rfl
  | cons r rest ih =>
    simp only [HybridRetriever.addRankingMetadata, List.map_cons, ih, stripTag]

/-- Every tagged result carries the method the tagging step wrote. -/
theorem addRankingMetadata_map_method (m : String) (n : ℕ)
    (l : List EvidenceResult) :
    (HybridRetriever.addRankingMetadata m n l).map (fun r => r.ranking_method) =
      l.map (fun _ => some m) := by
  induction l generalizing n with
  | nil => rfl
  | cons r rest ih =>
    simp only [HybridRetriever.addRankingMetadata, List.map_cons, ih]

/-- Stage-1 results carry no tag fields, so `stripTag` fixes them. -/
theorem retrieve_evidence_map_stripTag {V : Type} (embed : String → Option V)
    (st : VectorSearchState V EvidenceMeta) (query : String) (top_k : ℕ)
    (min_similarity : ℚ) :
    (EvidenceRetriever.retrieve_evidence embed st query top_k min_similarity).map
        stripTag =
      EvidenceRetriever.retrieve_evidence embed st query top_k min_similarity := by
  unfold EvidenceRetriever.retrieve_evidence
  cases embed query with
  | none => rfl
  | some qv => simp [List.map_map, Function.comp, stripTag, EvidenceRetriever.mkResult]

/-- Claim C3 (amended, for the `HybridRetriever` of `vector_search.py`):
with the cross-encoder unavailable, `retrieve_and_rerank` returns exactly
the stage-1 candidates of `retrieve_evidence` — same order, same scores —
truncated to `final_top_k`, and tags every result `'dense_only'`.  (The
model is total: the call always returns a list.) -/
theorem hybrid_vs_dense_only_passthrough {V : Type} (σ : ℚ → ℚ)
    (embed : String → Option V) (st : VectorSearchState V EvidenceMeta)
    (query : String) (initial_top_k final_top_k : ℕ) (min_similarity : ℚ) :
    (HybridRetriever.retrieve_and_rerank_vs none σ embed st query initial_top_k
          final_top_k min_similarity).map stripTag =
      (EvidenceRetriever.retrieve_evidence embed st query initial_top_k
          min_similarity).take final_top_k ∧
    (HybridRetriever.retrieve_and_rerank_vs none σ embed st query initial_top_k
          final_top_k min_similarity).map (fun r => r.ranking_method) =
      ((EvidenceRetriever.retrieve_evidence embed st query initial_top_k
          min_similarity).take final_top_k).map (fun _ => some "dense_only") := by
  unfold HybridRetriever.retrieve_and_rerank_vs
  cases he : (EvidenceRetriever.retrieve_evidence embed st query initial_top_k
      min_similarity).isEmpty with
  | true =>
    have hnil : EvidenceRetriever.retrieve_evidence embed st query initial_top_k
        min_similarity = [] := by
      cases hl : EvidenceRetriever.retrieve_evidence embed st query initial_top_k
          min_similarity with
      | nil => rfl
      | cons a as => rw [hl] at he; simp [List.isEmpty] at he
    simp [he, hnil]
  | false =>
    constructor
    · rw [if_neg (by simp [he])]
      simp only [Option.isSome_none, Bool.false_eq_true, if_false,
        addRankingMetadata_map_stripTag]
      rw [List.map_take, retrieve_evidence_map_stripTag]
    · rw [if_neg (by simp [he])]
      simp only [Option.isSome_none, Bool.false_eq_true, if_false,
        addRankingMetadata_map_method]

/-- Claim C3 (counterexample, for the near-duplicate `HybridRetriever` of
`reranker.py`): with the cross-encoder model unavailable, on a two-record
corpus with `final_top_k = 1` the call returns *two* results — the stage-1
list untruncated — each tagged `'hybrid_dense_crossencoder'`, not
`'dense_only'`. -/
theorem hybrid_rr_scorer_down_cex :
    (HybridRetriever.retrieve_and_rerank_rr none sigmaStub embedU stTwo "q" 2 1
          0).map (fun r => r.ranking_method) =
      [some "hybrid_dense_crossencoder", some "hybrid_dense_crossencoder"] ∧
    (HybridRetriever.retrieve_and_rerank_rr none sigmaStub embedU stTwo "q" 2 1
        0).length = 2 ∧
    ¬((HybridRetriever.retrieve_and_rerank_rr none sigmaStub embedU stTwo "q" 2 1
        0).length ≤ 1) ∧
    "hybrid_dense_crossencoder" ≠ "dense_only" := by
  have h : HybridRetriever.retrieve_and_rerank_rr none sigmaStub embedU stTwo "q" 2 1 0 =
      [{ EvidenceRetriever.mkResult 0 1 mVax with
          final_rank := some 1, ranking_method := some "hybrid_dense_crossencoder" },
       { EvidenceRetriever.mkResult 1 1 mDigital with
          final_rank := some 2, ranking_method := some "hybrid_dense_crossencoder" }] := by
    simp [HybridRetriever.retrieve_and_rerank_rr, HybridRetriever.addRankingMetadata,
      Reranker.rerank, EvidenceRetriever.retrieve_evidence, EvidenceRetriever.mkResult,
      FAISSVectorSearch.search, FAISSVectorSearch.formatResults, pyGet, embedU, stTwo,
      annTwo]
  rw [h]
  refine ⟨rfl, rfl, by decide, by decide⟩

/-- Membership in the tagged output comes from membership (up to the tag
fields) in the tagging step's input, preserving `id`. -/
theorem mem_addRankingMetadata {m : String} {r : EvidenceResult} :
    ∀ {n : ℕ} {l : List EvidenceResult}, r ∈ HybridRetriever.addRankingMetadata m n l →
      ∃ c ∈ l, r.id = c.id := by
  intro n l
  induction l generalizing n with
  | nil => intro h; simp [HybridRetriever.addRankingMetadata] at h
  | cons c rest ih =>
    intro h
    simp only [HybridRetriever.addRankingMetadata, List.mem_cons] at h
    cases h with
    | inl h => exact ⟨c, by simp, by rw [h]⟩
    | inr h =>
      obtain ⟨c', hc', hid⟩ := ih h
      exact ⟨c', by simp [hc'], hid⟩

/-- Everything the shared reranking body returns originates (id-wise) from
its input passages. -/
theorem mem_rerankBody {σ : ℚ → ℚ} {scorer : String → String → ℚ}
    {query : String} {l : List EvidenceResult} {k : ℕ} {r : EvidenceResult}
    (hr : r ∈ Reranker.rerankBody σ scorer query l k) : ∃ c ∈ l, r.id = c.id := by
  unfold Reranker.rerankBody at hr
  have hsorted : r ∈ List.insertionSort
      (fun a b => Reranker.combKey b ≤ Reranker.combKey a)
      (l.map (Reranker.scorePassage σ scorer query)) := by
    by_cases hk : k = 0
    · simpa [hk] using hr
    · rw [if_neg hk] at hr
      exact List.take_subset _ _ hr
  have hmem : r ∈ l.map (Reranker.scorePassage σ scorer query) :=
    (List.mem_insertionSort _).mp hsorted
  obtain ⟨c, hc, rfl⟩ := List.mem_map.mp hmem
  exact ⟨c, hc, rfl⟩

/-- Everything `CrossEncoderReranker.rerank` returns originates (id-wise)
from its input passages, whether or not the model is loaded. -/
theorem mem_rerank {model : Option (String → String → ℚ)} {σ : ℚ → ℚ}
    {query : String} {l : List EvidenceResult} {k : ℕ} {r : EvidenceResult}
    (hr : r ∈ Reranker.rerank model σ query l k) : ∃ c ∈ l, r.id = c.id := by
  cases model with
  | none => exact ⟨r, hr, rfl⟩
  | some scorer =>
    simp only [Reranker.rerank] at hr
    by_cases hl : l.isEmpty
    · rw [if_pos hl] at hr; simp at hr
    · rw [if_neg hl] at hr
      exact mem_rerankBody hr

/-- Claim C5: recall containment — for both `retrieve_and_rerank`
implementations, every returned id appears among the ids of the stage-1
candidate set produced by the dense retrieval with `top_k =
initial_top_k`; reranking only reorders and truncates. -/
theorem retrieve_and_rerank_recall_containment {V : Type}
    (ce : Option (String → String → ℚ)) (σ : ℚ → ℚ) (embed : String → Option V)
    (st : VectorSearchState V EvidenceMeta) (query : String)
    (initial_top_k final_top_k : ℕ) (min_similarity : ℚ) :
    (∀ r ∈ HybridRetriever.retrieve_and_rerank_vs ce σ embed st query
        initial_top_k final_top_k min_similarity,
      r.id ∈ (EvidenceRetriever.retrieve_evidence embed st query initial_top_k
          min_similarity).map (fun c => c.id)) ∧
    (∀ r ∈ HybridRetriever.retrieve_and_rerank_rr ce σ embed st query
        initial_top_k final_top_k min_similarity,
      r.id ∈ (EvidenceRetriever.retrieve_evidence embed st query initial_top_k
          min_similarity).map (fun c => c.id)) := by
  constructor
  · intro r hr
    unfold HybridRetriever.retrieve_and_rerank_vs at hr
    by_cases he : (EvidenceRetriever.retrieve_evidence embed st query
        initial_top_k min_similarity).isEmpty
    · rw [if_pos he] at hr; simp at hr
    · rw [if_neg he] at hr
      obtain ⟨c, hc, hid⟩ := mem_addRankingMetadata hr
      cases ce with
      | some scorer =>
        obtain ⟨c', hc', hid'⟩ := mem_rerankBody hc
        exact List.mem_map.mpr ⟨c', hc', by rw [← hid', ← hid]⟩
      | none =>
        exact List.mem_map.mpr ⟨c, List.take_subset _ _ hc, hid.symm⟩
  · intro r hr
    unfold HybridRetriever.retrieve_and_rerank_rr at hr
    by_cases he : (EvidenceRetriever.retrieve_evidence embed st query
        initial_top_k min_similarity).isEmpty
    · rw [if_pos he] at hr; simp at hr
    · rw [if_neg he] at hr
      obtain ⟨c, hc, hid⟩ := mem_addRankingMetadata hr
      obtain ⟨c', hc', hid'⟩ := mem_rerank hc
      exact List.mem_map.mpr ⟨c', hc', by rw [← hid', ← hid]⟩

/-- Witness for claim C5 on a concrete two-record corpus. -/
theorem retrieve_and_rerank_recall_containment_witness :
    "A" ∈ (EvidenceRetriever.retrieve_evidence embedU stTwo "q" 2 0).map
      (fun c => c.id) :=
  (retrieve_and_rerank_recall_containment none sigmaStub embedU stTwo "q" 2 1 0).1
    rVaxTagged
    (by simp [HybridRetriever.retrieve_and_rerank_vs,
        HybridRetriever.addRankingMetadata, EvidenceRetriever.retrieve_evidence,
        EvidenceRetriever.mkResult, FAISSVectorSearch.search,
        FAISSVectorSearch.formatResults, pyGet, embedU, stTwo, annTwo, mVax,
        rVaxTagged])

/-- `lruEntry` returns `none` exactly on the empty cache. -/
theorem lruEntry_eq_none_iff {V : Type} (st : MemoryCache.State V) :
    MemoryCache.lruEntry st = none ↔ st = [] := by
  cases st with
  | nil => simp [MemoryCache.lruEntry]
  | cons e rest =>
    cases hr : MemoryCache.lruEntry rest with
    | none => simp [MemoryCache.lruEntry, hr]
    | some q =>
      simp only [MemoryCache.lruEntry, hr]
      constructor
      · intro h
        split at h <;> simp at h
      · intro h
        simp at h

/-- The entry selected by `_evict_lru` is in the cache and has the minimal
`last_accessed` (ties resolved to the earliest slot, as Python's `min`
does). -/
theorem lruEntry_spec {V : Type} :
    ∀ (st : MemoryCache.State V) (p : CacheEntryQ V),
      MemoryCache.lruEntry st = some p →
        p ∈ st ∧ ∀ q ∈ st, p.last_accessed ≤ q.last_accessed := by
  intro st
  induction st with
  | nil => intro p h; simp [MemoryCache.lruEntry] at h
  | cons e rest ih =>
    intro p h
    simp only [MemoryCache.lruEntry] at h
    cases hr : MemoryCache.lruEntry rest with
    | none =>
      rw [hr] at h
      have hrest : rest = [] := (lruEntry_eq_none_iff rest).mp hr
      have h' : some e = some p := h
      have hp : p = e := by simpa using h'.symm
      subst hp hrest
      exact ⟨by simp, by simp⟩
    | some q0 =>
      rw [hr] at h
      obtain ⟨hq0, hmin0⟩ := ih q0 hr
      have h' : (if q0.last_accessed < e.last_accessed then some q0 else some e) =
          some p := h
      by_cases hlt : q0.last_accessed < e.last_accessed
      · rw [if_pos hlt] at h'
        have hp : p = q0 := by simpa using h'.symm
        subst hp
        refine ⟨by simp [hq0], ?_⟩
        intro q hq
        rcases List.mem_cons.mp hq with rfl | hq'
        · exact le_of_lt hlt
        · exact hmin0 q hq'
      · rw [if_neg hlt] at h'
        have hp : p = e := by simpa using h'.symm
        subst hp
        refine ⟨by simp, ?_⟩
        intro q hq
        rcases List.mem_cons.mp hq with rfl | hq'
        · exact le_refl _
        · exact le_trans (not_lt.mp hlt) (hmin0 q hq')

/-- Deleting `p.key` from a cache in which no earlier entry shares that key
removes exactly the entry `p`. -/
theorem eraseKey_append_of_not_mem {V : Type} (p : CacheEntryQ V)
    (l2 : MemoryCache.State V) :
    ∀ l1 : MemoryCache.State V, (∀ e ∈ l1, e.key ≠ p.key) →
      MemoryCache.eraseKey (l1 ++ p :: l2) p.key = l1 ++ l2 := by
  intro l1
  induction l1 with
  | nil => intro _; simp [MemoryCache.eraseKey]
  | cons e rest ih =>
    intro h
    have hne : e.key ≠ p.key := h e (by simp)
    simp only [List.cons_append, MemoryCache.eraseKey]
    rw [if_neg (by simpa using hne)]
    exact congrArg (List.cons e) (ih (fun e' he' => h e' (by simp [he'])))

/-- Dict assignment grows the cache by at most one entry. -/
theorem assign_length_le {V : Type} (l : MemoryCache.State V)
    (e' : CacheEntryQ V) :
    (MemoryCache.assign l e').length ≤ l.length + 1 := by
  induction l with
  | nil => simp [MemoryCache.assign]
  | cons e rest ih =>
    simp only [MemoryCache.assign]
    split
    · simp
    · simpa using Nat.succ_le_succ ih

/-- Claim C4 (amended): for a `MemoryCache` with `max_size ≥ 1` whose size
has reached `max_size` (distinct keys, as in a Python dict), `set` evicts
exactly one entry — one with the oldest `last_accessed` — before the
insert, and the size after the insert does not exceed `max_size`. -/
theorem memory_cache_set_lru_amended {V : Type} (st : MemoryCache.State V)
    (max_size : ℕ) (default_ttl : ℚ) (key : String) (value : V)
    (ttl : Option ℚ) (now : ℚ) (h1 : 1 ≤ max_size) (h2 : st.length = max_size)
    (h3 : (st.map CacheEntryQ.key).Nodup) :
    ∃ p l1 l2, p ∈ st ∧ (∀ q ∈ st, p.last_accessed ≤ q.last_accessed) ∧
      st = l1 ++ p :: l2 ∧
      MemoryCache.set st max_size default_ttl key value ttl now =
        MemoryCache.assign (l1 ++ l2)
          (CacheEntryQ.mkEntry key value (MemoryCache.pyTtlOr ttl default_ttl)
            now) ∧
      (MemoryCache.set st max_size default_ttl key value ttl now).length ≤
        max_size := by
  have hne : st ≠ [] := by
    intro h
    rw [h] at h2
    simp at h2
    omega
  obtain ⟨p, hp⟩ : ∃ p, MemoryCache.lruEntry st = some p := by
    cases hl : MemoryCache.lruEntry st with
    | none => exact absurd ((lruEntry_eq_none_iff st).mp hl) hne
    | some p => exact ⟨p, rfl⟩
  obtain ⟨hmem, hmin⟩ := lruEntry_spec st p hp
  obtain ⟨l1, l2, hsplit⟩ := List.append_of_mem hmem
  have hl1 : ∀ e ∈ l1, e.key ≠ p.key := by
    intro e he heq
    rw [hsplit, List.map_append] at h3
    have hdisj := (List.nodup_append.mp h3).2.2
    exact hdisj (heq ▸ List.mem_map_of_mem CacheEntryQ.key he)
      (by simp [List.map_cons])
  have herase : MemoryCache.eraseKey st p.key = l1 ++ l2 := by
    rw [hsplit]
    exact eraseKey_append_of_not_mem p l2 l1 hl1
  have hevict : MemoryCache.evictLRU st = l1 ++ l2 := by
    unfold MemoryCache.evictLRU
    rw [hp]
    exact herase
  have hset : MemoryCache.set st max_size default_ttl key value ttl now =
      MemoryCache.assign (l1 ++ l2)
        (CacheEntryQ.mkEntry key value (MemoryCache.pyTtlOr ttl default_ttl)
          now) := by
    unfold MemoryCache.set
    rw [if_pos (by omega : max_size ≤ st.length), hevict]
  have hlen : (l1 ++ l2).length + 1 = st.length := by
    rw [hsplit]
    simp [List.length_append]
    omega
  refine ⟨p, l1, l2, hmem, hmin, hsplit, hset, ?_⟩
  rw [hset]
  have := assign_length_le (l1 ++ l2)
    (CacheEntryQ.mkEntry key value (MemoryCache.pyTtlOr ttl default_ttl) now)
  omega

/-- Witness for claim C4 (amended): a full two-entry cache evicts the
least-recently-accessed entry ("b", `last_accessed = 3`) on insert. -/
theorem memory_cache_set_lru_amended_witness :
    ∃ p l1 l2, p ∈ [entryA, entryB] ∧
      (∀ q ∈ [entryA, entryB], p.last_accessed ≤ q.last_accessed) ∧
      [entryA, entryB] = l1 ++ p :: l2 ∧
      MemoryCache.set [entryA, entryB] 2 3600 "c" 7 none 9 =
        MemoryCache.assign (l1 ++ l2)
          (CacheEntryQ.mkEntry "c" 7 (MemoryCache.pyTtlOr none 3600) 9) ∧
      (MemoryCache.set [entryA, entryB] 2 3600 "c" 7 none 9).length ≤ 2 :=
  memory_cache_set_lru_amended [entryA, entryB] 2 3600 "c" 7 none 9
    (by decide) (by decide) (by decide)

/-- Claim C4 (counterexample): with `max_size = 0`, the empty cache has
"reached" `max_size`, yet `set` evicts nothing (there is no entry to
evict) and the size after the insert is 1 > `max_size`; the claimed size
invariant fails as stated. -/
theorem memory_cache_set_max_size_zero_cex :
    ¬((MemoryCache.set ([] : MemoryCache.State ℕ) 0 3600 "a" 5 none 0).length ≤ 0) := by
  decide

/-- Claim C10: when the stored value for a key is Python `None` (and the
entry is unexpired), `CacheManager.get` returns `None` and counts a miss,
never a hit — a cached `None` is indistinguishable from absence in the
manager's accounting. -/
theorem cache_manager_counts_stored_none_as_miss {U : Type}
    (st : MemoryCache.State (Option U)) (stats : CacheStats) (key : String)
    (now : ℚ) (e : CacheEntryQ (Option U))
    (h1 : MemoryCache.findEntry st key = some e) (h2 : e.value = none)
    (h3 : e.isExpired now = false) :
    (CacheManager.get st stats key now).1 = none ∧
    (CacheManager.get st stats key now).2.2.misses = stats.misses + 1 ∧
    (CacheManager.get st stats key now).2.2.hits = stats.hits := by
  unfold CacheManager.get MemoryCache.get
  rw [h1]
  simp [h3, h2]

/-- Witness for claim C10 at a concrete cache holding `None` under "k". -/
theorem cache_manager_counts_stored_none_as_miss_witness :
    (CacheManager.get [entryNone] stats0 "k" 0).1 = none ∧
    (CacheManager.get [entryNone] stats0 "k" 0).2.2.misses = stats0.misses + 1 ∧
    (CacheManager.get [entryNone] stats0 "k" 0).2.2.hits = stats0.hits :=
  cache_manager_counts_stored_none_as_miss [entryNone] stats0 "k" 0 entryNone
    rfl rfl (by simp [CacheEntryQ.isExpired, entryNone])

